import Mathlib

/-!
A shallow embedding of the tagged-value module (src/value.c) and of the
compiler's single-error cell (declared in src/core/compile.h) of the dst
runtime, together with theorems settling the claims about value equality,
ordering, hashing, printing, and compiler error propagation.

Conventions of the embedding:
* Machine integers are `Nat` with explicit reduction modulo a power of two
  where C overflow/truncation matters; the powers are written as decimal
  literals (4294967296 = 2^32, 4503599627370496 = 2^52,
  9223372036854775808 = 2^63, 18446744073709551616 = 2^64).
* A heap-allocated string is a `StrObj` (its mutable header hash field plus
  its byte content); string values hold a pointer (`Nat`) into a `Heap`.
  `ValueHash` may memoize, so it returns the possibly-updated heap.
* IEEE-754 doubles are modelled by their 64-bit pattern. For non-NaN
  patterns the C comparisons `==` and `>` coincide with comparison of the
  sign-magnitude key `nKey` (both zeros share key 0); NaN compares false.
  The union puns reading the first four bytes of a double or of a pointer
  are modelled, for a little-endian platform, as the low 32 bits.
-/

/-- A heap string object: the header hash field and the byte content.
Mirrors the `VStringHash`/`VStringSize` header plus data of value.c. -/
structure StrObj where
  hashField : Nat
  content : List Nat
deriving DecidableEq, Repr

/-- The string heap: pointers to string objects. -/
abbrev Heap := Nat → StrObj

/-- Pointwise heap update (the effect of writing one string header). -/
def updateHeap (H : Heap) (p : Nat) (s : StrObj) : Heap :=
  fun q => if q = p then s else H q

/-- The tagged value sum of value.c. Composite reference types carry their
pointer as a `Nat`. -/
inductive Value where
  | nil
  | boolean (b : Bool)
  | number (bits : Nat)
  | string (ptr : Nat)
  | symbol (ptr : Nat)
  | array (ptr : Nat)
  | form (ptr : Nat)
  | dictionary (ptr : Nat)
  | bytebuffer (ptr : Nat)
  | cfunction (ptr : Nat)
  | function (ptr : Nat)
  | funcdef (ptr : Nat)
  | funcenv (ptr : Nat)
  | thread (ptr : Nat)
deriving DecidableEq, Repr

/-- Modelled from the spec: the header value.h holding the TYPE_* enum is not
under src/; only value.c's uses of `x.type` are. The tags are numbered in
the order the spec lists the variants (nil, boolean, number, string, symbol,
array, form, dictionary, bytebuffer, C-function, closure, funcdef, funcenv,
thread). All theorems about type-tag ordering depend only on this numbering
being injective. -/
def typeTag : Value → Nat
  | .nil => 0
  | .boolean _ => 1
  | .number _ => 2
  | .string _ => 3
  | .symbol _ => 4
  | .array _ => 5
  | .form _ => 6
  | .dictionary _ => 7
  | .bytebuffer _ => 8
  | .cfunction _ => 9
  | .function _ => 10
  | .funcdef _ => 11
  | .funcenv _ => 12
  | .thread _ => 13

/-- Sign bit of a 64-bit IEEE-754 double pattern. -/
def nSign (b : Nat) : Bool := b / 9223372036854775808 % 2 == 1

/-- Exponent field (11 bits) of a double pattern. -/
def nExp (b : Nat) : Nat := b / 4503599627370496 % 2048

/-- Mantissa field (52 bits) of a double pattern. -/
def nMant (b : Nat) : Nat := b % 4503599627370496

/-- NaN: all-ones exponent with nonzero mantissa. -/
def nIsNaN (b : Nat) : Bool := nExp b == 2047 && nMant b != 0

/-- Magnitude bits (the pattern without its sign bit). -/
def nMag (b : Nat) : Nat := b % 9223372036854775808

/-- Sign-magnitude key: for non-NaN patterns the IEEE value order is exactly
the order of this key (the bits-to-value map is strictly monotone in
magnitude for each sign, and both zeros get key 0). -/
def nKey (b : Nat) : Int := if nSign b then -(nMag b : Int) else (nMag b : Int)

/-- C `x.data.number == y.data.number` on double patterns. -/
def numEq (a b : Nat) : Bool := !(nIsNaN a || nIsNaN b) && nKey a == nKey b

/-- C `x.data.number > y.data.number` on double patterns. -/
def numGt (a b : Nat) : Bool := !(nIsNaN a || nIsNaN b) && decide (nKey b < nKey a)

/-- The djb2 hash of value.c, with 32-bit wraparound at each step
(`hash = (hash << 5) + hash + *str` is `hash * 33 + byte` mod 2^32). -/
def djb2 (content : List Nat) : Nat :=
  content.foldl (fun h b => (h * 33 + b) % 4294967296) 5381

/-- `ValueHash` of value.c. Strings memoize: a zero header hash field is
(re)computed with djb2 and written back, so the heap is threaded through.
The number and pointer branches read the first four bytes of the union,
i.e. (little-endian) the low 32 bits. -/
def ValueHash (H : Heap) (x : Value) : Nat × Heap :=
  match x with
  | .nil => (0, H)
  | .boolean b => (if b then 1 else 0, H)
  | .number bits => (bits % 4294967296, H)
  | .string p | .symbol p =>
    if (H p).hashField ≠ 0 then ((H p).hashField, H)
    else (djb2 (H p).content, updateHeap H p ⟨djb2 (H p).content, (H p).content⟩)
  | .array p | .form p | .dictionary p | .bytebuffer p | .cfunction p
  | .function p | .funcdef p | .funcenv p | .thread p => (p % 4294967296, H)

/-- C `strncmp` on byte lists: compares at most `n` bytes but stops at the
first NUL byte. (The arms where one list runs out early are unreachable at
the one call site, which has already checked the lengths equal.) -/
def strncmp : List Nat → List Nat → Nat → Int
  | _, _, 0 => 0
  | [], [], _ + 1 => 0
  | [], _ :: _, _ + 1 => -1
  | _ :: _, [], _ + 1 => 1
  | a :: as_, b :: bs, n + 1 =>
    if a ≠ b then (if a < b then -1 else 1)
    else if a = 0 then 0
    else strncmp as_ bs n

/-- `ValueEqual` of value.c. Same type tag required; strings first try
pointer identity, then compare hashes (mutating the headers via
`ValueHash`), lengths, and finally `strncmp`; the nine composite reference
types compare by pointer. The pair is returned with the heap as mutated by
the hash calls. -/
def ValueEqual (H : Heap) (x y : Value) : Nat × Heap :=
  if typeTag x ≠ typeTag y then (0, H)
  else
    match x, y with
    | .nil, .nil => (1, H)
    | .boolean a, .boolean b => (if a = b then 1 else 0, H)
    | .number a, .number b => (if numEq a b then 1 else 0, H)
    | .string p, .string q | .symbol p, .symbol q =>
      if p = q then (1, H)
      else
        let r1 := ValueHash H x
        let r2 := ValueHash r1.2 y
        if r1.1 ≠ r2.1 ∨ (r2.2 p).content.length ≠ (r2.2 q).content.length then
          (0, r2.2)
        else if strncmp (r2.2 p).content (r2.2 q).content (r2.2 p).content.length = 0 then
          (1, r2.2)
        else (0, r2.2)
    | .array p, .array q | .form p, .form q | .dictionary p, .dictionary q
    | .bytebuffer p, .bytebuffer q | .cfunction p, .cfunction q
    | .function p, .function q | .funcdef p, .funcdef q
    | .funcenv p, .funcenv q | .thread p, .thread q =>
      (if p = q then 1 else 0, H)
    | _, _ => (0, H)

/-- The string loop of `ValueCompare`: scan the common prefix; at the first
differing byte value.c returns 1 when x's byte is the smaller one and -1
when it is the larger one; if one string is exhausted, the shorter string
orders first. -/
def strCompareLoop : List Nat → List Nat → Int
  | a :: as_, b :: bs =>
    if a = b then strCompareLoop as_ bs
    else if a < b then 1
    else -1
  | a, b =>
    if a.length = b.length then 0
    else if a.length < b.length then -1
    else 1

/-- `ValueCompare` of value.c. Equal tags dispatch on the payload; on
different tags the smaller tag orders first. The trailing 1 mirrors the
C fallthrough after the switch. -/
def ValueCompare (H : Heap) (x y : Value) : Int :=
  if typeTag x = typeTag y then
    match x, y with
    | .nil, .nil => 0
    | .boolean a, .boolean b => if a = b then 0 else if a then 1 else -1
    | .number a, .number b => if numEq a b then 0 else if numGt a b then 1 else -1
    | .string p, .string q | .symbol p, .symbol q =>
      if p = q then 0 else strCompareLoop (H p).content (H q).content
    | .array p, .array q | .form p, .form q | .dictionary p, .dictionary q
    | .bytebuffer p, .bytebuffer q | .cfunction p, .cfunction q
    | .function p, .function q | .funcdef p, .funcdef q
    | .funcenv p, .funcenv q | .thread p, .thread q =>
      if p = q then 0 else if q < p then 1 else -1
    | _, _ => 1
  else if typeTag x < typeTag y then -1
  else 1

/-- What `ValueToString` returns: a freshly allocated byte string, or the
value's own string data (a pointer). -/
inductive CStrResult where
  | fresh (content : List Nat)
  | owned (ptr : Nat)
deriving DecidableEq, Repr

/-- The hex digit table of value.c. -/
def HEX_CHARACTERS : List Nat :=
  [48, 49, 50, 51, 52, 53, 54, 55, 56, 57, 65, 66, 67, 68, 69, 70]

/-- Index into the hex digit table. -/
def hexChar (i : Nat) : Nat := HEX_CHARACTERS.getD i 0

/-- The bytes of a pointer as stored in memory (little-endian): byte i is
bits 8i..8i+7. -/
def pointerBytes (p : Nat) : List Nat :=
  (List.range 8).map fun i => p / 256 ^ i % 256

/-- `StringDescription` of value.c: a `<title HH..HH>` byte string for a
pointer, two hex digits per pointer byte. -/
def StringDescription (title : List Nat) (p : Nat) : List Nat :=
  60 :: (title ++ 32 ::
    (((pointerBytes p).map fun b => [hexChar (b / 16), hexChar (b % 16)]).flatten ++ [62]))

/-- `ValueToString` of value.c. The number branch formats with snprintf
"%.17g", which is outside the embedding; the definition is parametric in
that formatter (`numFmt`), and no claim constrains its output. Every branch
of the C switch returns, so the result is always `some`; the trailing
`return NULL` of the C function is unreachable for the modelled tags. -/
def ValueToString (numFmt : Nat → List Nat) (x : Value) : Option CStrResult :=
  match x with
  | .nil => some (.fresh [110, 105, 108])
  | .boolean b =>
    some (.fresh (if b then [116, 114, 117, 101] else [102, 97, 108, 115, 101]))
  | .number bits => some (.fresh (numFmt bits))
  | .array p => some (.fresh (StringDescription [97, 114, 114, 97, 121] p))
  | .form p => some (.fresh (StringDescription [102, 111, 114, 109] p))
  | .string p | .symbol p => some (.owned p)
  | .bytebuffer p => some (.fresh (StringDescription [98, 117, 102, 102, 101, 114] p))
  | .cfunction p =>
    some (.fresh (StringDescription [99, 102, 117, 110, 99, 116, 105, 111, 110] p))
  | .function p =>
    some (.fresh (StringDescription [102, 117, 110, 99, 116, 105, 111, 110] p))
  | .dictionary p =>
    some (.fresh (StringDescription [100, 105, 99, 116, 105, 111, 110, 97, 114, 121] p))
  | .funcdef p =>
    some (.fresh (StringDescription [102, 117, 110, 99, 100, 101, 102] p))
  | .funcenv p =>
    some (.fresh (StringDescription [102, 117, 110, 99, 101, 110, 118] p))
  | .thread p => some (.fresh (StringDescription [116, 104, 114, 101, 97, 100] p))

/-- A value is the NaN-number case (the reflexivity carve-out). -/
def valueIsNaN : Value → Bool
  | .number b => nIsNaN b
  | _ => false

/-- Well-formedness of a string header for the hashing claims: the hash
field is 0 (not yet computed) or the djb2 hash of the content. -/
def strWF (s : StrObj) : Prop :=
  s.hashField = 0 ∨ s.hashField = djb2 s.content

/-- Well-formedness of a value for the hashing claims: number patterns fit
in 64 bits and string headers satisfy `strWF`. -/
def valueWF (H : Heap) : Value → Prop
  | .number b => b < 18446744073709551616
  | .string p | .symbol p => strWF (H p)
  | _ => True

/-- A compile-time slot, per `struct DstSlot` in src/core/compile.h. -/
structure DstSlot where
  index : Int
  envindex : Int
  flags : Nat
  constant : Value
deriving DecidableEq, Repr

/-- `DST_SLOT_CONSTANT` (0x10000) of src/core/compile.h. -/
def DST_SLOT_CONSTANT : Nat := 65536

/-- Modelled from the spec: the body of `dstc_cslot` (compile.c) is not under
src/; only its declaration is. Per the spec, a constant slot carries the
literal value with the CONSTANT flag and no runtime location yet. -/
def dstc_cslot (x : Value) : DstSlot :=
  ⟨0, 0, DST_SLOT_CONSTANT, x⟩

/-- The compiler state relevant to error propagation, per `struct
DstCompiler` of src/core/compile.h: the instruction buffer, the parallel
source-map buffer, and the single-error result cell (`none` = no error,
`some m` = first recorded message). -/
structure DstCompiler where
  buffer : List Nat
  mapbuffer : List Int
  resultError : Option (List Nat)
deriving DecidableEq, Repr

/-- Modelled from the spec: the body of `dstc_iserr` (compile.c) is not
under src/. Per the spec's single-error cell, it tests whether an error has
been recorded. -/
def dstc_iserr (c : DstCompiler) : Bool := c.resultError.isSome

/-- Modelled from the spec: the body of `dstc_error` (compile.c) is not
under src/. Per the spec, on first error the compiler records the message
in its result cell; the first error wins, so a later error does not
overwrite it. -/
def dstc_error (c : DstCompiler) (m : List Nat) : DstCompiler :=
  match c.resultError with
  | some _ => c
  | none => ⟨c.buffer, c.mapbuffer, some m⟩

/-- Modelled from the spec: the body of `dstc_emit` (compile.c) is not under
src/. Per the spec, after an error is recorded further emissions become
no-ops; otherwise an instruction word and its source-map entry are appended
in parallel. -/
def dstc_emit (c : DstCompiler) (instr : Nat) (mapEntry : Int) : DstCompiler :=
  if dstc_iserr c then c
  else ⟨c.buffer ++ [instr], c.mapbuffer ++ [mapEntry], c.resultError⟩

/-- Modelled from the spec: the body of `dstc_value` (compile.c) is not
under src/. Per the spec's propagation rule, once an error is recorded every
further form compilation returns a neutral nil constant slot and does
nothing; otherwise the real dispatcher runs. The embedding is parametric in
that dispatcher (`normal`). -/
def dstc_value (normal : DstCompiler → Value → DstSlot × DstCompiler)
    (c : DstCompiler) (x : Value) : DstSlot × DstCompiler :=
  if dstc_iserr c then (dstc_cslot Value.nil, c)
  else normal c x

/-- The published compilation output (the part of `DstFuncDef` the error
claims mention). -/
structure DstFuncDef where
  bytecode : List Nat
deriving DecidableEq, Repr

/-- Modelled from the spec: the top-level compile entry (compile.c) is not
under src/. Per the spec, compilation of a source tree is a function from
(value, environment) to `FuncDef` or error, and no partial `FuncDef` is
published to the caller on error. -/
def dst_compile (normal : DstCompiler → Value → DstSlot × DstCompiler)
    (c : DstCompiler) (x : Value) : Except (List Nat) DstFuncDef :=
  let r := dstc_value normal c x
  match r.2.resultError with
  | some m => Except.error m
  | none => Except.ok ⟨r.2.buffer⟩

/-- An arbitrary heap used to instantiate witnesses. -/
def exHeap : Heap := fun _ => ⟨0, [97, 98]⟩

/-- A concrete heap for the counterexample evaluations: pointer 1 holds
"a", pointer 2 holds "b", pointer 3 holds bytes 97 0 2 0 and pointer 4
holds bytes 97 0 1 33 (two distinct strings with an embedded NUL, equal
length, and colliding djb2 hashes). -/
def cexHeap : Heap := fun p =>
  if p = 1 then ⟨0, [97]⟩
  else if p = 2 then ⟨0, [98]⟩
  else if p = 3 then ⟨0, [97, 0, 2, 0]⟩
  else if p = 4 then ⟨0, [97, 0, 1, 33]⟩
  else ⟨0, []⟩

/-- The bit pattern of a quiet NaN (0x7FF8000000000000). -/
def nanBits : Nat := 9221120237041090560

/-- The bit pattern of the double 1.0 (0x3FF0000000000000). -/
def oneBits : Nat := 4607182418800017408

/-- Mismatched type tags make `ValueEqual` return 0. -/
lemma valueEqual_ne_tag (H : Heap) (x y : Value) (h : typeTag x ≠ typeTag y) :
    (ValueEqual H x y).1 = 0 := by
  simp [ValueEqual, h]

/-- The pure value of a string hash: the memoized field if set, else djb2. -/
def strHashVal (s : StrObj) : Nat :=
  if s.hashField ≠ 0 then s.hashField else djb2 s.content

/-- `ValueHash` on a string or symbol returns `strHashVal` of its object. -/
lemma valueHash_string_val (H : Heap) (p : Nat) :
    (ValueHash H (Value.string p)).1 = strHashVal (H p) ∧
    (ValueHash H (Value.symbol p)).1 = strHashVal (H p) := by
  unfold ValueHash strHashVal
  constructor <;> by_cases hf : (H p).hashField ≠ 0 <;> simp [hf]

/-- Hashing a string only writes its own header: other pointers are
untouched. -/
lemma valueHash_other (H : Heap) (p q : Nat) (h : q ≠ p) :
    (ValueHash H (Value.string p)).2 q = H q ∧
    (ValueHash H (Value.symbol p)).2 q = H q := by
  unfold ValueHash
  constructor <;> by_cases hf : (H p).hashField ≠ 0 <;> simp [hf, updateHeap, h]

/-- Reduction of `ValueEqual` on two distinct string pointers. -/
lemma valueEqual_string_string (H : Heap) (p q : Nat) (hpq : p ≠ q) :
    ValueEqual H (Value.string p) (Value.string q) =
      (let r1 := ValueHash H (Value.string p)
       let r2 := ValueHash r1.2 (Value.string q)
       if r1.1 ≠ r2.1 ∨ (r2.2 p).content.length ≠ (r2.2 q).content.length then
         (0, r2.2)
       else if strncmp (r2.2 p).content (r2.2 q).content (r2.2 p).content.length = 0 then
         (1, r2.2)
       else (0, r2.2)) := by
  simp [ValueEqual, typeTag, hpq]

/-- Reduction of `ValueEqual` on two distinct symbol pointers. -/
lemma valueEqual_symbol_symbol (H : Heap) (p q : Nat) (hpq : p ≠ q) :
    ValueEqual H (Value.symbol p) (Value.symbol q) =
      (let r1 := ValueHash H (Value.symbol p)
       let r2 := ValueHash r1.2 (Value.symbol q)
       if r1.1 ≠ r2.1 ∨ (r2.2 p).content.length ≠ (r2.2 q).content.length then
         (0, r2.2)
       else if strncmp (r2.2 p).content (r2.2 q).content (r2.2 p).content.length = 0 then
         (1, r2.2)
       else (0, r2.2)) := by
  simp [ValueEqual, typeTag, hpq]

/-- If `ValueEqual` says two strings are equal, their hashes agree (the
hash test is the first filter of the string branch). -/
lemma valueEqual_one_hash_eq (H : Heap) (p q : Nat)
    (h : (ValueEqual H (Value.string p) (Value.string q)).1 = 1) :
    (ValueHash H (Value.string p)).1 = (ValueHash H (Value.string q)).1 := by
  by_cases hpq : p = q
  · subst hpq; rfl
  · rw [valueEqual_string_string H p q hpq] at h
    by_cases hc : (ValueHash H (Value.string p)).1 ≠
        (ValueHash (ValueHash H (Value.string p)).2 (Value.string q)).1 ∨
        ((ValueHash (ValueHash H (Value.string p)).2 (Value.string q)).2 p).content.length ≠
        ((ValueHash (ValueHash H (Value.string p)).2 (Value.string q)).2 q).content.length
    · simp only [hc, if_true] at h
      exact absurd h (by decide)
    · push_neg at hc
      have hq : (ValueHash (ValueHash H (Value.string p)).2 (Value.string q)).1 =
          (ValueHash H (Value.string q)).1 := by
        have hHq : (ValueHash H (Value.string p)).2 q = H q :=
          (valueHash_other H p q (Ne.symm hpq)).1
        rw [(valueHash_string_val (ValueHash H (Value.string p)).2 q).1,
          (valueHash_string_val H q).1, hHq]
      rw [← hq]
      exact hc.1

/-- Symbol version of `valueEqual_one_hash_eq`. -/
lemma valueEqual_one_hash_eq_sym (H : Heap) (p q : Nat)
    (h : (ValueEqual H (Value.symbol p) (Value.symbol q)).1 = 1) :
    (ValueHash H (Value.symbol p)).1 = (ValueHash H (Value.symbol q)).1 := by
  by_cases hpq : p = q
  · subst hpq; rfl
  · rw [valueEqual_symbol_symbol H p q hpq] at h
    by_cases hc : (ValueHash H (Value.symbol p)).1 ≠
        (ValueHash (ValueHash H (Value.symbol p)).2 (Value.symbol q)).1 ∨
        ((ValueHash (ValueHash H (Value.symbol p)).2 (Value.symbol q)).2 p).content.length ≠
        ((ValueHash (ValueHash H (Value.symbol p)).2 (Value.symbol q)).2 q).content.length
    · simp only [hc, if_true] at h
      exact absurd h (by decide)
    · push_neg at hc
      have hq : (ValueHash (ValueHash H (Value.symbol p)).2 (Value.symbol q)).1 =
          (ValueHash H (Value.symbol q)).1 := by
        have hHq : (ValueHash H (Value.symbol p)).2 q = H q :=
          (valueHash_other H p q (Ne.symm hpq)).2
        rw [(valueHash_string_val (ValueHash H (Value.symbol p)).2 q).2,
          (valueHash_string_val H q).2, hHq]
      rw [← hq]
      exact hc.1

/-- Two 64-bit double patterns that compare `==` (hence non-NaN with equal
sign-magnitude key) have equal low 32 bits: either the patterns coincide or
they are the two zeros, whose low words are both 0. -/
lemma numEq_hash (a b : Nat)
    (ha : a < 18446744073709551616) (hb : b < 18446744073709551616)
    (h : numEq a b = true) : a % 4294967296 = b % 4294967296 := by
  unfold numEq at h
  rw [Bool.and_eq_true] at h
  have hk : nKey a = nKey b := beq_iff_eq.mp h.2
  unfold nKey nSign nMag at hk
  split_ifs at hk with h1 h2 h2 <;>
    simp only [beq_iff_eq] at h1 h2 <;>
    omega

/-- C1: evaluation at the failing input. With pointer 1 holding "a" and
pointer 2 holding "b", "a" precedes "b" in lexicographic byte order, so the
claim (and the function's own contract "If x is less, returns -1") demands
-1; the code returns 1 at the first differing byte, and -1 only in the
reversed direction. -/
theorem claim_C1_string_compare_inverted :
    (cexHeap 1).content = [97] ∧ (cexHeap 2).content = [98] ∧
    ValueCompare cexHeap (Value.string 1) (Value.string 2) = 1 ∧
    ValueCompare cexHeap (Value.string 2) (Value.string 1) = -1 := by
  refine ⟨rfl, rfl, ?_, ?_⟩ <;> decide

/-- C2: evaluation at the failing input. For NaN number values (quiet NaN
pattern 0x7FF8000000000000) the compare returns -1 in both directions, so
`ValueCompare x y = -1` does not imply `ValueCompare y x = 1`: the ordering
is not total on NaN, contradicting the claim (and the function's own
contract of strict ordering). -/
theorem claim_C2_compare_nan_not_antisymmetric :
    nIsNaN nanBits = true ∧
    ValueCompare exHeap (Value.number nanBits) (Value.number nanBits) = -1 ∧
    ValueCompare exHeap (Value.number nanBits) (Value.number oneBits) = -1 ∧
    ValueCompare exHeap (Value.number oneBits) (Value.number nanBits) = -1 := by
  refine ⟨by decide, ?_, ?_, ?_⟩ <;> decide

/-- C3: evaluation at the failing input. Pointers 3 and 4 hold distinct
byte strings of equal length (97 0 2 0 and 97 0 1 33) with equal djb2
hashes; because the code compares content with `strncmp`, which stops at
the embedded NUL, `ValueEqual` returns 1 even though the contents differ,
contradicting the claim's byte-for-byte equality. -/
theorem claim_C3_equal_embedded_nul :
    (cexHeap 3).content ≠ (cexHeap 4).content ∧
    (cexHeap 3).content.length = (cexHeap 4).content.length ∧
    djb2 (cexHeap 3).content = djb2 (cexHeap 4).content ∧
    (ValueEqual cexHeap (Value.string 3) (Value.string 4)).1 = 1 := by
  refine ⟨by decide, by decide, by decide, ?_⟩
  decide

/-- A composite reference type tag (the nine pointer-compare cases). -/
inductive CompTag where
  | array | form | dictionary | bytebuffer | cfunction
  | function | funcdef | funcenv | thread
deriving DecidableEq, Repr

/-- Build the composite value of a given composite tag and pointer. -/
def mkComposite : CompTag → Nat → Value
  | .array, p => .array p
  | .form, p => .form p
  | .dictionary, p => .dictionary p
  | .bytebuffer, p => .bytebuffer p
  | .cfunction, p => .cfunction p
  | .function, p => .function p
  | .funcdef, p => .funcdef p
  | .funcenv, p => .funcenv p
  | .thread, p => .thread p

/-- C4: for any two values of the same composite reference type,
`ValueEqual` returns 1 exactly on pointer identity and `ValueCompare`
returns 0 exactly on pointer identity; arrays and forms go through the same
pointer-compare branch (their compares agree as functions of the two
pointers). -/
theorem claim_C4_composite_identity : ∀ (H : Heap) (t : CompTag) (p q : Nat),
    (ValueEqual H (mkComposite t p) (mkComposite t q)).1 = (if p = q then 1 else 0) ∧
    (ValueCompare H (mkComposite t p) (mkComposite t q) = 0 ↔ p = q) ∧
    ValueCompare H (Value.array p) (Value.array q) =
      ValueCompare H (Value.form p) (Value.form q) := by
  intro H t p q
  refine ⟨?_, ?_, ?_⟩
  · cases t <;> simp [ValueEqual, typeTag, mkComposite]
  · cases t <;>
      (simp only [ValueCompare, typeTag, mkComposite, if_true, reduceIte];
        split_ifs with h1 h2 <;> simp_all)
  · simp [ValueCompare, typeTag]

/-- On a well-formed header the string hash value is the djb2 hash of the
content. -/
lemma strHashVal_wf (s : StrObj) (h : strWF s) : strHashVal s = djb2 s.content := by
  unfold strHashVal
  split_ifs with hf
  · exact h.resolve_left hf
  · rfl

/-- After hashing a string, its own object keeps its content, and (for a
well-formed header) its header now holds the djb2 hash of that content. -/
lemma valueHash_self_fields (H : Heap) (p : Nat) :
    ((ValueHash H (Value.string p)).2 p).content = (H p).content ∧
    ((ValueHash H (Value.symbol p)).2 p).content = (H p).content ∧
    (strWF (H p) → ((ValueHash H (Value.string p)).2 p).hashField = djb2 (H p).content) ∧
    (strWF (H p) → ((ValueHash H (Value.symbol p)).2 p).hashField = djb2 (H p).content) := by
  by_cases hf : (H p).hashField ≠ 0
  · have hs : (ValueHash H (Value.string p)).2 = H := by simp [ValueHash, hf]
    have hy : (ValueHash H (Value.symbol p)).2 = H := by simp [ValueHash, hf]
    rw [hs, hy]
    exact ⟨rfl, rfl, fun hwf => hwf.resolve_left hf, fun hwf => hwf.resolve_left hf⟩
  · push_neg at hf
    have hs : (ValueHash H (Value.string p)).2 p = ⟨djb2 (H p).content, (H p).content⟩ := by
      simp [ValueHash, hf, updateHeap]
    have hy : (ValueHash H (Value.symbol p)).2 p = ⟨djb2 (H p).content, (H p).content⟩ := by
      simp [ValueHash, hf, updateHeap]
    rw [hs, hy]
    exact ⟨rfl, rfl, fun _ => rfl, fun _ => rfl⟩

/-- C5: for a string or symbol whose header hash field is 0 or a previously
computed djb2 hash of its content, `ValueHash` returns the djb2 hash of the
content, after the call the header holds that hash (in particular it is
stored when the field was 0), and a subsequent call on the same value over
the updated heap returns the same result. -/
theorem claim_C5_hash_memoized : ∀ (H : Heap) (v : Value) (p : Nat),
    (v = Value.string p ∨ v = Value.symbol p) → strWF (H p) →
    (ValueHash H v).1 = djb2 (H p).content ∧
    ((ValueHash H v).2 p).hashField = djb2 (H p).content ∧
    (ValueHash (ValueHash H v).2 v).1 = (ValueHash H v).1 := by
  intro H v p hv hwf
  rcases hv with rfl | rfl
  · have h1 : (ValueHash H (Value.string p)).1 = djb2 (H p).content := by
      rw [(valueHash_string_val H p).1, strHashVal_wf _ hwf]
    have hcon : ((ValueHash H (Value.string p)).2 p).content = (H p).content :=
      (valueHash_self_fields H p).1
    have h2 : ((ValueHash H (Value.string p)).2 p).hashField = djb2 (H p).content :=
      (valueHash_self_fields H p).2.2.1 hwf
    refine ⟨h1, h2, ?_⟩
    have hwf' : strWF ((ValueHash H (Value.string p)).2 p) := Or.inr (by rw [h2, hcon])
    rw [(valueHash_string_val _ p).1, strHashVal_wf _ hwf', hcon, h1]
  · have h1 : (ValueHash H (Value.symbol p)).1 = djb2 (H p).content := by
      rw [(valueHash_string_val H p).2, strHashVal_wf _ hwf]
    have hcon : ((ValueHash H (Value.symbol p)).2 p).content = (H p).content :=
      (valueHash_self_fields H p).2.1
    have h2 : ((ValueHash H (Value.symbol p)).2 p).hashField = djb2 (H p).content :=
      (valueHash_self_fields H p).2.2.2 hwf
    refine ⟨h1, h2, ?_⟩
    have hwf' : strWF ((ValueHash H (Value.symbol p)).2 p) := Or.inr (by rw [h2, hcon])
    rw [(valueHash_string_val _ p).2, strHashVal_wf _ hwf', hcon, h1]

/-- C5 witness: instantiation at a concrete heap and string. -/
theorem claim_C5_witness :
    (ValueHash exHeap (Value.string 0)).1 = djb2 (exHeap 0).content ∧
    ((ValueHash exHeap (Value.string 0)).2 0).hashField = djb2 (exHeap 0).content ∧
    (ValueHash (ValueHash exHeap (Value.string 0)).2 (Value.string 0)).1 =
      (ValueHash exHeap (Value.string 0)).1 :=
  claim_C5_hash_memoized exHeap (Value.string 0) 0 (Or.inl rfl) (Or.inl rfl)

/-- C6: on different type tags `ValueCompare` ignores the payloads and
orders by the numeric tag: -1 when x's tag is smaller, 1 when it is
greater. -/
theorem claim_C6_type_tag_order : ∀ (H : Heap) (x y : Value),
    typeTag x ≠ typeTag y →
    ValueCompare H x y = if typeTag x < typeTag y then -1 else 1 := by
  intro H x y h
  unfold ValueCompare
  rw [if_neg h]

/-- C6 witness: instantiation at nil versus boolean. -/
theorem claim_C6_witness :
    ValueCompare exHeap Value.nil (Value.boolean true) =
      if typeTag Value.nil < typeTag (Value.boolean true) then -1 else 1 :=
  claim_C6_type_tag_order exHeap Value.nil (Value.boolean true) (by decide)

/-- C7: once an error is recorded in the result cell, a further form
compilation returns the neutral nil constant slot with the state untouched
(so no instructions are emitted), emission is a no-op, and the top-level
compile returns the first error and publishes no FuncDef. -/
theorem claim_C7_first_error_wins :
    ∀ (normal : DstCompiler → Value → DstSlot × DstCompiler)
      (c : DstCompiler) (x : Value) (m : List Nat) (instr : Nat) (mapEntry : Int),
    c.resultError = some m →
    dstc_value normal c x = (dstc_cslot Value.nil, c) ∧
    dstc_emit c instr mapEntry = c ∧
    dst_compile normal c x = Except.error m := by
  intro normal c x m instr mapEntry h
  have hiserr : dstc_iserr c = true := by simp [dstc_iserr, h]
  refine ⟨?_, ?_, ?_⟩
  · simp [dstc_value, hiserr]
  · simp [dstc_emit, hiserr]
  · simp [dst_compile, dstc_value, hiserr, h]

/-- C7 witness: a concrete errored compiler state. -/
theorem claim_C7_witness :
    dstc_value (fun c _ => (dstc_cslot Value.nil, c)) ⟨[], [], some [65]⟩ Value.nil =
      (dstc_cslot Value.nil, (⟨[], [], some [65]⟩ : DstCompiler)) ∧
    dstc_emit ⟨[], [], some [65]⟩ 7 0 = (⟨[], [], some [65]⟩ : DstCompiler) ∧
    dst_compile (fun c _ => (dstc_cslot Value.nil, c)) ⟨[], [], some [65]⟩ Value.nil =
      Except.error [65] :=
  claim_C7_first_error_wins (fun c _ => (dstc_cslot Value.nil, c))
    ⟨[], [], some [65]⟩ Value.nil [65] 7 0 rfl

/-- C8: equality and ordering are reflexive on every value except a NaN
number: `ValueEqual x x` returns 1 and `ValueCompare x x` returns 0. -/
theorem claim_C8_reflexive : ∀ (H : Heap) (x : Value),
    valueIsNaN x = false →
    (ValueEqual H x x).1 = 1 ∧ ValueCompare H x x = 0 := by
  intro H x h
  cases x <;> simp_all [ValueEqual, ValueCompare, valueIsNaN, typeTag, numEq]

/-- C8 witness: instantiation at a boolean. -/
theorem claim_C8_witness :
    (ValueEqual exHeap (Value.boolean true) (Value.boolean true)).1 = 1 ∧
    ValueCompare exHeap (Value.boolean true) (Value.boolean true) = 0 :=
  claim_C8_reflexive exHeap (Value.boolean true) rfl

/-- C9: hashing is consistent with equality: on well-formed values (string
headers 0 or memoized, number patterns 64-bit), `ValueEqual x y = 1`
implies `ValueHash x = ValueHash y`. -/
theorem claim_C9_hash_consistent : ∀ (H : Heap) (x y : Value),
    valueWF H x → valueWF H y →
    (ValueEqual H x y).1 = 1 →
    (ValueHash H x).1 = (ValueHash H y).1 := by
  intro H x y wfx wfy heq
  by_cases htag : typeTag x = typeTag y
  case neg =>
    rw [valueEqual_ne_tag H x y htag] at heq
    exact absurd heq (by decide)
  case pos =>
  cases x <;> cases y <;> try (simp only [typeTag] at htag; omega)
  · rename_i a b
    by_cases hab : a = b
    · subst hab; rfl
    · simp [ValueEqual, typeTag, hab] at heq
  · rename_i a b
    by_cases hn : numEq a b
    · simp only [ValueHash]
      exact numEq_hash a b wfx wfy hn
    · simp [ValueEqual, typeTag, hn] at heq
  · rename_i p q
    exact valueEqual_one_hash_eq H p q heq
  · rename_i p q
    exact valueEqual_one_hash_eq_sym H p q heq
  · rename_i p q
    have hpq : p = q := by
      by_contra hc
      simp [ValueEqual, typeTag, hc] at heq
    subst hpq; rfl
  · rename_i p q
    have hpq : p = q := by
      by_contra hc
      simp [ValueEqual, typeTag, hc] at heq
    subst hpq; rfl
  · rename_i p q
    have hpq : p = q := by
      by_contra hc
      simp [ValueEqual, typeTag, hc] at heq
    subst hpq; rfl
  · rename_i p q
    have hpq : p = q := by
      by_contra hc
      simp [ValueEqual, typeTag, hc] at heq
    subst hpq; rfl
  · rename_i p q
    have hpq : p = q := by
      by_contra hc
      simp [ValueEqual, typeTag, hc] at heq
    subst hpq; rfl
  · rename_i p q
    have hpq : p = q := by
      by_contra hc
      simp [ValueEqual, typeTag, hc] at heq
    subst hpq; rfl
  · rename_i p q
    have hpq : p = q := by
      by_contra hc
      simp [ValueEqual, typeTag, hc] at heq
    subst hpq; rfl
  · rename_i p q
    have hpq : p = q := by
      by_contra hc
      simp [ValueEqual, typeTag, hc] at heq
    subst hpq; rfl
  · rename_i p q
    have hpq : p = q := by
      by_contra hc
      simp [ValueEqual, typeTag, hc] at heq
    subst hpq; rfl

/-- C9 witness: two equal booleans hash alike. -/
theorem claim_C9_witness :
    (ValueHash exHeap (Value.boolean true)).1 = (ValueHash exHeap (Value.boolean true)).1 :=
  claim_C9_hash_consistent exHeap (Value.boolean true) (Value.boolean true)
    trivial trivial rfl

/-- C10: `ValueToString` returns a string for every value of the modelled
type tags (the trailing NULL return of the C function is unreachable); for
string and symbol values it returns the value's own string data, and for
nil, true and false the strings "nil", "true" and "false". -/
theorem claim_C10_to_string_total :
    ∀ (numFmt : Nat → List Nat) (x : Value) (p : Nat),
    (ValueToString numFmt x).isSome = true ∧
    ValueToString numFmt (Value.string p) = some (CStrResult.owned p) ∧
    ValueToString numFmt (Value.symbol p) = some (CStrResult.owned p) ∧
    ValueToString numFmt Value.nil = some (CStrResult.fresh [110, 105, 108]) ∧
    ValueToString numFmt (Value.boolean true) = some (CStrResult.fresh [116, 114, 117, 101]) ∧
    ValueToString numFmt (Value.boolean false) =
      some (CStrResult.fresh [102, 97, 108, 115, 101]) := by
  intro numFmt x p
  refine ⟨?_, rfl, rfl, rfl, rfl, rfl⟩
  cases x <;> rfl
